import Mathlib

/-!
Verification of the coinfection simulation core (`src/main.rs`) against its
natural-language specification.

The embedding below translates the engine's data model and per-entity step
functions into Lean. Machine floats (`f32`) are modelled by `ℚ`; the Rust
`as u32` cast on a nonnegative float is truncation toward zero, modelled by
`ratToU32`; random draws (`rand::random::<f32>()`, `Uniform::sample`) are
passed in explicitly as rational parameters.
-/

/-- Infection stages of one inoculation (enum `InfectionState` in the source). -/
inductive InfectionState
  | E
  | A
  | C
  deriving DecidableEq

/-- One infection event (component `Inoculation` in the source). -/
structure Inoculation where
  state : InfectionState
  start_day : ℕ
  delay_days : ℚ
  deriving DecidableEq

/-- A simulated individual (component `Host` in the source). -/
structure Host where
  on_prophylaxis : Bool
  prophylaxis_end_day : Option ℕ
  treat_request_day : Option ℕ
  deriving DecidableEq

/-- `#[derive(Default)]` on `Host`: all fields false / `None`. -/
def Host.default : Host :=
  { on_prophylaxis := false, prophylaxis_end_day := none, treat_request_day := none }

/-- Resource `Params` in the source. The three `Uniform<f32>` samplers are
represented by their lower and upper bounds; the sampled values themselves are
passed to the step functions as explicit draws. -/
structure Params where
  duration_liver : ℚ
  duration_prophylaxis : ℚ
  prob_acute : ℚ
  prob_ac : ℚ
  prob_treatment : ℚ
  duration_acute_lo : ℚ
  duration_acute_hi : ℚ
  duration_chronic_lo : ℚ
  duration_chronic_hi : ℚ
  treatment_delay_lo : ℚ
  treatment_delay_hi : ℚ
  incidence_rate : ℚ
  deriving DecidableEq

/-- `impl Default for Params` in the source. -/
def Params.default : Params :=
  { duration_liver := 7
    duration_prophylaxis := 14
    prob_acute := 7/10
    prob_ac := 2/10
    prob_treatment := 4/10
    duration_acute_lo := 10
    duration_acute_hi := 40
    duration_chronic_lo := 100
    duration_chronic_hi := 400
    treatment_delay_lo := 0
    treatment_delay_hi := 2
    incidence_rate := 1/10 }

/-- Resource `SimulationTime`: the day counter plus the repeating 1-second
timer's elapsed time (`Timer::from_seconds(1.0, TimerMode::Repeating)`). -/
structure SimulationTime where
  day : ℕ
  elapsed : ℚ
  deriving DecidableEq

/-- Resource `SimulationSpeed`. -/
structure SimulationSpeed where
  multiplier : ℚ
  deriving DecidableEq

/-- `impl Default for SimulationSpeed`. -/
def SimulationSpeed.default : SimulationSpeed := { multiplier := 1 }

/-- Rust's `as u32` cast of a (nonnegative, in-range) `f32`: truncation toward
zero, with negatives saturating to 0. -/
def ratToU32 (x : ℚ) : ℕ := (⌊x⌋).toNat

/-- System `update_simulation_time`: tick the repeating timer by
`wall_delta * speed`; when it finishes, `day += 1` (once — Bevy's repeating
timer wraps its elapsed time modulo the 1-second duration, and the code checks
the boolean `just_finished()` and adds a single day). -/
def update_simulation_time (st : SimulationTime) (wall_delta speed : ℚ) : SimulationTime :=
  if 1 ≤ st.elapsed + wall_delta * speed then
    { day := st.day + 1,
      elapsed := st.elapsed + wall_delta * speed - ⌊st.elapsed + wall_delta * speed⌋ }
  else
    { day := st.day, elapsed := st.elapsed + wall_delta * speed }

/-- The explicit random draws one pass of the transition logic over a single
inoculation may consume (each field is one `rand::random` / `sample` call
site in `process_inoculations`). -/
structure Draws where
  u_acute : ℚ
  u_ac : ℚ
  u_treat : ℚ
  dur_acute : ℚ
  dur_chronic : ℚ
  treat_delay : ℚ
  deriving DecidableEq

/-- The scheduled treatment day, `sim_time.day + params.treatment_delay.sample(&mut rng) as u32`
(the cast binds before the addition). -/
def treatCandidateDay (day : ℕ) (sample : ℚ) : ℕ := day + ratToU32 sample

/-- Earliest-wins update of `host.treat_request_day` with a candidate day
(lines 257-259 of the source): overwrite only if unset or strictly earlier. -/
def scheduleTreat (host : Host) (cand : ℕ) : Host :=
  match host.treat_request_day with
  | none => { host with treat_request_day := some cand }
  | some old =>
    if cand < old then { host with treat_request_day := some cand } else host

/-- System `process_inoculations`, restricted to one inoculation and its owning
host. Returns the surviving (possibly updated) inoculation — `none` means it
was despawned — and the possibly updated host. -/
def processInoculation (params : Params) (day : ℕ) (host : Host) (inoc : Inoculation)
    (d : Draws) : Option Inoculation × Host :=
  match inoc.state with
  | InfectionState.E =>
    if inoc.delay_days ≤ (day : ℚ) - (inoc.start_day : ℚ) then
      if host.on_prophylaxis then (none, host)
      else if d.u_acute < params.prob_acute then
        if d.u_treat < params.prob_treatment then
          (some { state := InfectionState.A, start_day := day, delay_days := d.dur_acute },
           scheduleTreat host (treatCandidateDay day d.treat_delay))
        else
          (some { state := InfectionState.A, start_day := day, delay_days := d.dur_acute },
           host)
      else
        (some { state := InfectionState.C, start_day := day, delay_days := d.dur_chronic },
         host)
    else (some inoc, host)
  | InfectionState.A =>
    if inoc.delay_days ≤ (day : ℚ) - (inoc.start_day : ℚ) then
      if d.u_ac < params.prob_ac then
        (some { state := InfectionState.C, start_day := day, delay_days := d.dur_chronic },
         host)
      else (none, host)
    else (some inoc, host)
  | InfectionState.C =>
    if inoc.delay_days ≤ (day : ℚ) - (inoc.start_day : ℚ) then (none, host)
    else (some inoc, host)

/-- First half of `process_hosts` for one host: when a treatment request is due,
despawn every owned inoculation, start prophylaxis
(`prophylaxis_end_day = day + duration_prophylaxis as u32`), clear the request. -/
def applyTreatment (params : Params) (day : ℕ) (host : Host) (inocs : List Inoculation) :
    Host × List Inoculation :=
  match host.treat_request_day with
  | some t =>
    if t ≤ day then
      ({ on_prophylaxis := true,
         prophylaxis_end_day := some (day + ratToU32 params.duration_prophylaxis),
         treat_request_day := none },
       [])
    else (host, inocs)
  | none => (host, inocs)

/-- Second half of `process_hosts` for one host: end prophylaxis once its end
day has passed (reads the value possibly just set by `applyTreatment`). -/
def endProphylaxis (day : ℕ) (host : Host) : Host :=
  match host.prophylaxis_end_day with
  | some e =>
    if e ≤ day then { host with on_prophylaxis := false, prophylaxis_end_day := none }
    else host
  | none => host

/-- System `process_hosts`, restricted to one host and its owned inoculations:
the treatment check followed by the prophylaxis-end check. -/
def processHost (params : Params) (day : ℕ) (host : Host) (inocs : List Inoculation) :
    Host × List Inoculation :=
  (endProphylaxis day (applyTreatment params day host inocs).1,
   (applyTreatment params day host inocs).2)

/-- System `spawn_infections`, restricted to one host on one tick: with `u` the
uniform draw, spawn a fresh Exposed inoculation when
`u < incidence_rate * wall_delta * speed`. -/
def spawnInfection (params : Params) (day : ℕ) (wall_delta speed u : ℚ) : Option Inoculation :=
  if u < params.incidence_rate * wall_delta * speed then
    some { state := InfectionState.E, start_day := day, delay_days := params.duration_liver }
  else none

/-- `spawn_infections` for one host over a sequence of ticks; each tick carries
its `(day, wall_delta, speed, u)`. -/
def spawnInfectionTicks (params : Params) (ticks : List (ℕ × ℚ × ℚ × ℚ)) : List Inoculation :=
  ticks.filterMap fun t => spawnInfection params t.1 t.2.1 t.2.2.1 t.2.2.2

/-- `simulation_controls_ui`: a changed speed slider assigns the value directly. -/
def set_speed_multiplier (s : SimulationSpeed) (v : ℚ) : SimulationSpeed :=
  { s with multiplier := v }

/-- `simulation_controls_ui`: a changed incidence-rate slider assigns directly. -/
def set_incidence_rate (p : Params) (v : ℚ) : Params := { p with incidence_rate := v }

/-- `simulation_controls_ui`: a changed prophylaxis-duration slider assigns directly. -/
def set_duration_prophylaxis (p : Params) (v : ℚ) : Params :=
  { p with duration_prophylaxis := v }

/-- `simulation_controls_ui`: a changed treatment-probability slider assigns directly. -/
def set_prob_treatment (p : Params) (v : ℚ) : Params := { p with prob_treatment := v }

/-- Rounding to the nearest whole day as the spec words it (`round`, half away
from zero for nonnegative arguments). Spec-side definition, used only to
compare the spec's wording with the code's truncation. -/
def specRound (x : ℚ) : ℤ := ⌊x + 1/2⌋

/-- The transition edges exactly as the claim lists them: Exposed→Acute,
Exposed→Chronic, Acute→Chronic, Acute→removed, Chronic→removed. Spec-side
definition following the claim's words. -/
def claimedEdge : InfectionState → Option Inoculation → Prop
  | InfectionState.E, some i => i.state = InfectionState.A ∨ i.state = InfectionState.C
  | InfectionState.E, none => False
  | InfectionState.A, some i => i.state = InfectionState.C
  | InfectionState.A, none => True
  | InfectionState.C, some _ => False
  | InfectionState.C, none => True

/-- The transition edges the code actually realises: as `claimedEdge`, plus
Exposed→removed (prophylaxis suppression and forced treatment clearing). -/
def codeEdge : InfectionState → Option Inoculation → Prop
  | InfectionState.E, some i => i.state = InfectionState.A ∨ i.state = InfectionState.C
  | InfectionState.E, none => True
  | InfectionState.A, some i => i.state = InfectionState.C
  | InfectionState.A, none => True
  | InfectionState.C, some _ => False
  | InfectionState.C, none => True

/-- The flag/end-day consistency invariant on a host. -/
def prophylaxisInv (h : Host) : Prop :=
  h.on_prophylaxis = true ↔ h.prophylaxis_end_day.isSome = true

/-- A concrete set of draws for instantiating the step functions. -/
def d0 : Draws :=
  { u_acute := 1/2, u_ac := 1/2, u_treat := 1/5, dur_acute := 20, dur_chronic := 200,
    treat_delay := 3/2 }

/-- C1, counterexample: from day 0 with an empty accumulator, a single update
worth 2.5 days crosses two day boundaries, yet `update_simulation_time`
increments `day` only once (the repeating timer wraps and the second whole day
is dropped), contradicting the claim that the counter increases by the full
number of boundaries crossed. -/
theorem claim_C1_counterexample :
    update_simulation_time ⟨0, 0⟩ (5/2) 1 = ⟨1, 1/2⟩ ∧
    ⌊(0 : ℚ) + 5/2 * 1⌋ = 2 ∧
    (⟨1, 1/2⟩ : SimulationTime).day ≠ 0 + 2 := by
  refine ⟨?_, by norm_num, by decide⟩
  unfold update_simulation_time
  norm_num

/-- C1, amended: per update call, `day` increases by exactly 1 when the
accumulated timer (previous elapsed plus `wall_delta * speed`) reaches the
1-second day threshold and by 0 otherwise; it never increases by more than 1
in one call even when several boundaries are crossed, and it never decreases. -/
theorem claim_C1_amended (st : SimulationTime) (wall_delta speed : ℚ) :
    ((update_simulation_time st wall_delta speed).day = st.day + 1 ↔
      1 ≤ st.elapsed + wall_delta * speed) ∧
    (update_simulation_time st wall_delta speed).day ≤ st.day + 1 ∧
    st.day ≤ (update_simulation_time st wall_delta speed).day := by
  unfold update_simulation_time
  split
  · simp_all
  · simp_all

/-- C7: a new inoculation is spawned for a host on a tick exactly when the
uniform draw `u` satisfies `u < incidence_rate * wall_delta * speed`, and the
spawned inoculation is Exposed at the current day with the liver-stage delay;
with `incidence_rate = 0` and nonnegative draws nothing is ever spawned, on one
tick or over any sequence of ticks. -/
theorem claim_C7 (params : Params) (day : ℕ) (wall_delta speed u : ℚ)
    (ticks : List (ℕ × ℚ × ℚ × ℚ)) :
    (spawnInfection params day wall_delta speed u =
        some { state := InfectionState.E, start_day := day,
               delay_days := params.duration_liver } ↔
      u < params.incidence_rate * wall_delta * speed) ∧
    (params.incidence_rate = 0 → 0 ≤ u →
      spawnInfection params day wall_delta speed u = none) ∧
    (params.incidence_rate = 0 → (∀ x ∈ ticks, 0 ≤ x.2.2.2) →
      spawnInfectionTicks params ticks = []) := by
  refine ⟨?_, ?_, ?_⟩
  · unfold spawnInfection
    split
    · simp_all
    · simp_all
  · intro hrate hu
    unfold spawnInfection
    rw [hrate]
    simp
    linarith
  · intro hrate hticks
    unfold spawnInfectionTicks
    rw [List.filterMap_eq_nil_iff]
    intro x hx
    unfold spawnInfection
    rw [hrate]
    have := hticks x hx
    simp
    linarith

/-- C8, counterexample: updating the incidence rate to the out-of-range value
-1 (a probability-like rate below 0) and the speed multiplier to the
non-positive value -2 both succeed and store the value verbatim — no error is
surfaced and nothing is clamped, contradicting the claim that such updates
fail synchronously. -/
theorem claim_C8_counterexample :
    (set_incidence_rate Params.default (-1)).incidence_rate = -1 ∧ ((-1 : ℚ) < 0) ∧
    (set_speed_multiplier SimulationSpeed.default (-2)).multiplier = -2 ∧
    ¬ ((0 : ℚ) < -2) := by
  exact ⟨rfl, by norm_num, rfl, by norm_num⟩

/-- C8, amended: the core performs no validation at all — `Params::default`
constructs fixed in-range values, and every runtime update of a parameter or
of the speed multiplier stores the given value verbatim for any rational
value, touching no other field: no error is surfaced, and the core itself
never clamps (range limiting exists only in the external UI sliders). -/
theorem claim_C8_amended (p : Params) (s : SimulationSpeed) (v : ℚ) :
    (set_incidence_rate p v).incidence_rate = v ∧
    (set_incidence_rate p v).prob_acute = p.prob_acute ∧
    (set_duration_prophylaxis p v).duration_prophylaxis = v ∧
    (set_duration_prophylaxis p v).prob_treatment = p.prob_treatment ∧
    (set_prob_treatment p v).prob_treatment = v ∧
    (set_speed_multiplier s v).multiplier = v ∧
    (0 ≤ Params.default.prob_treatment ∧ Params.default.prob_treatment ≤ 1) := by
  refine ⟨rfl, rfl, rfl, rfl, rfl, rfl, by norm_num [Params.default], by norm_num [Params.default]⟩

/-- C10: in a single tick a host gains at most one new inoculation — the spawn
is one Bernoulli trial per host per tick, not a Poisson count — and when the
effective probability `incidence_rate * wall_delta * speed` is at least 1 the
trial always fires (the probability saturates at 1, still producing exactly
one inoculation). -/
theorem claim_C10 (params : Params) (day : ℕ) (wall_delta speed u : ℚ) :
    (spawnInfection params day wall_delta speed u).toList.length ≤ 1 ∧
    (1 ≤ params.incidence_rate * wall_delta * speed → u < 1 →
      spawnInfection params day wall_delta speed u =
        some { state := InfectionState.E, start_day := day,
               delay_days := params.duration_liver }) := by
  constructor
  · unfold spawnInfection
    split <;> simp
  · intro hsat hu
    unfold spawnInfection
    rw [if_pos (lt_of_lt_of_le hu hsat)]

/-- C2, counterexample: with `duration_prophylaxis = 1.5`, treating a host on
day 5 stores `prophylaxis_end_day = 5 + 1 = 6` (the `as u32` cast truncates),
while the claim's `day + round(prophylaxis_days)` would be `5 + 2 = 7`. -/
theorem claim_C2_counterexample :
    (processHost { Params.default with duration_prophylaxis := 3/2 } 5
        ⟨false, none, some 5⟩
        [⟨InfectionState.E, 0, 7⟩, ⟨InfectionState.E, 1, 7⟩]).1.prophylaxis_end_day
      = some 6 ∧
    (5 : ℤ) + specRound (3/2) = 7 ∧ ((6 : ℤ) ≠ 7) := by
  refine ⟨?_, by norm_num [specRound], by norm_num⟩
  unfold processHost applyTreatment endProphylaxis
  norm_num [ratToU32]

/-- C2, amended: for every host whose pending treatment day is set and every
day at or past it, the treatment step destroys every owned inoculation
regardless of state, clears the pending day, sets `on_prophylaxis = true` and
`prophylaxis_end_day = day + trunc(prophylaxis_days)` — truncation toward zero
(the Rust `as u32` cast), not rounding. The flags survive the same pass's
end-of-prophylaxis check whenever the truncated duration is at least 1. -/
theorem claim_C2_amended (params : Params) (day t : ℕ) (host : Host)
    (inocs : List Inoculation) (hpend : host.treat_request_day = some t)
    (hday : t ≤ day) (hdur : 1 ≤ ratToU32 params.duration_prophylaxis) :
    (processHost params day host inocs).2 = [] ∧
    (processHost params day host inocs).1.on_prophylaxis = true ∧
    (processHost params day host inocs).1.prophylaxis_end_day =
      some (day + ratToU32 params.duration_prophylaxis) ∧
    (processHost params day host inocs).1.treat_request_day = none := by
  have h2 : ¬ (day + ratToU32 params.duration_prophylaxis ≤ day) := by omega
  simp [processHost, applyTreatment, endProphylaxis, hpend, hday, h2]

/-- Witness for the amended C2: a host pending treatment on day 5 with two live
Exposed inoculations, processed on day 5 with the default parameters. -/
theorem claim_C2_witness :
    (processHost Params.default 5 ⟨false, none, some 5⟩
        [⟨InfectionState.E, 0, 7⟩, ⟨InfectionState.E, 1, 7⟩]).2 = [] ∧
    (processHost Params.default 5 ⟨false, none, some 5⟩
        [⟨InfectionState.E, 0, 7⟩, ⟨InfectionState.E, 1, 7⟩]).1.on_prophylaxis = true ∧
    (processHost Params.default 5 ⟨false, none, some 5⟩
        [⟨InfectionState.E, 0, 7⟩, ⟨InfectionState.E, 1, 7⟩]).1.prophylaxis_end_day =
      some (5 + ratToU32 Params.default.duration_prophylaxis) ∧
    (processHost Params.default 5 ⟨false, none, some 5⟩
        [⟨InfectionState.E, 0, 7⟩, ⟨InfectionState.E, 1, 7⟩]).1.treat_request_day = none :=
  claim_C2_amended Params.default 5 5 ⟨false, none, some 5⟩
    [⟨InfectionState.E, 0, 7⟩, ⟨InfectionState.E, 1, 7⟩] rfl (by norm_num)
    (by norm_num [ratToU32, Params.default])

/-- C3: an Exposed inoculation owned by a host on prophylaxis is destroyed the
moment its delay has elapsed — the result is independent of every random draw
and the host is untouched — and in every case such an inoculation is either
destroyed or left unchanged: it never transitions to Acute or Chronic. -/
theorem claim_C3 (params : Params) (day : ℕ) (host : Host) (inoc : Inoculation)
    (d : Draws) (hp : host.on_prophylaxis = true)
    (he : inoc.state = InfectionState.E) :
    (inoc.delay_days ≤ (day : ℚ) - (inoc.start_day : ℚ) →
      processInoculation params day host inoc d = (none, host)) ∧
    ((processInoculation params day host inoc d).1 = none ∨
      processInoculation params day host inoc d = (some inoc, host)) := by
  constructor
  · intro hel
    simp [processInoculation, he, hp, hel]
  · by_cases hel : inoc.delay_days ≤ (day : ℚ) - (inoc.start_day : ℚ)
    · left
      simp [processInoculation, he, hp, hel]
    · right
      simp [processInoculation, he, hel]

/-- Witness for C3: a prophylaxed host and an Exposed inoculation whose 7-day
delay has elapsed by day 10, with concrete draws. -/
theorem claim_C3_witness :
    ((⟨InfectionState.E, 0, 7⟩ : Inoculation).delay_days ≤
        ((10 : ℕ) : ℚ) - (((⟨InfectionState.E, 0, 7⟩ : Inoculation).start_day : ℕ) : ℚ) →
      processInoculation Params.default 10 ⟨true, some 20, none⟩
        ⟨InfectionState.E, 0, 7⟩ d0 = (none, ⟨true, some 20, none⟩)) ∧
    ((processInoculation Params.default 10 ⟨true, some 20, none⟩
        ⟨InfectionState.E, 0, 7⟩ d0).1 = none ∨
      processInoculation Params.default 10 ⟨true, some 20, none⟩
        ⟨InfectionState.E, 0, 7⟩ d0 =
        (some ⟨InfectionState.E, 0, 7⟩, ⟨true, some 20, none⟩)) :=
  claim_C3 Params.default 10 ⟨true, some 20, none⟩ ⟨InfectionState.E, 0, 7⟩ d0 rfl rfl

/-- C5, counterexample: with a sampled treatment delay of 1.5 days on day 3,
the code schedules day `3 + 1 = 4` (`as u32` truncates toward zero), while the
claim's `day + round(delay)` would be `3 + 2 = 5`. -/
theorem claim_C5_counterexample :
    treatCandidateDay 3 (3/2) = 4 ∧
    (3 : ℤ) + specRound (3/2) = 5 ∧ ((4 : ℤ) ≠ 5) := by
  refine ⟨?_, by norm_num [specRound], by norm_num⟩
  unfold treatCandidateDay ratToU32
  norm_num

/-- C5, amended: the scheduled candidate day equals the current day plus the
sampled delay truncated toward zero (for a nonnegative sample, `day + ⌊s⌋`) —
not rounded to nearest — and that candidate is exactly what the Acute
transition's treatment trigger feeds into the earliest-wins update. -/
theorem claim_C5_amended (day : ℕ) (s : ℚ) (params : Params) (host : Host)
    (inoc : Inoculation) (d : Draws) (hs : 0 ≤ s)
    (he : inoc.state = InfectionState.E)
    (helap : inoc.delay_days ≤ (day : ℚ) - (inoc.start_day : ℚ))
    (hp : host.on_prophylaxis = false) (ha : d.u_acute < params.prob_acute)
    (ht : d.u_treat < params.prob_treatment) :
    (treatCandidateDay day s : ℤ) = (day : ℤ) + ⌊s⌋ ∧
    (processInoculation params day host inoc d).2 =
      scheduleTreat host (treatCandidateDay day d.treat_delay) := by
  constructor
  · unfold treatCandidateDay ratToU32
    have h0 : (0 : ℤ) ≤ ⌊s⌋ := Int.floor_nonneg.mpr hs
    push_cast [Int.toNat_of_nonneg h0]
    ring
  · simp [processInoculation, he, hp, helap, ha, ht]

/-- Witness for the amended C5: day 7, sampled delay 3/2, default parameters,
draws that take the Exposed inoculation to Acute and fire the treatment trigger. -/
theorem claim_C5_witness :
    (treatCandidateDay 7 (3/2) : ℤ) = ((7 : ℕ) : ℤ) + ⌊(3/2 : ℚ)⌋ ∧
    (processInoculation Params.default 7 Host.default
        ⟨InfectionState.E, 0, 7⟩ d0).2 =
      scheduleTreat Host.default (treatCandidateDay 7 d0.treat_delay) :=
  claim_C5_amended 7 (3/2) Params.default Host.default ⟨InfectionState.E, 0, 7⟩ d0
    (by norm_num) rfl (by norm_num) rfl
    (by norm_num [d0, Params.default]) (by norm_num [d0, Params.default])

/-- `scheduleTreat` writes only the treatment-request field. -/
theorem scheduleTreat_on_prophylaxis (host : Host) (c : ℕ) :
    (scheduleTreat host c).on_prophylaxis = host.on_prophylaxis := by
  unfold scheduleTreat
  split
  · rfl
  · split <;> rfl

/-- `scheduleTreat` writes only the treatment-request field. -/
theorem scheduleTreat_prophylaxis_end_day (host : Host) (c : ℕ) :
    (scheduleTreat host c).prophylaxis_end_day = host.prophylaxis_end_day := by
  unfold scheduleTreat
  split
  · rfl
  · split <;> rfl

/-- The transition step touches the owning host only through `scheduleTreat`. -/
theorem processInoculation_host_eq (params : Params) (day : ℕ) (host : Host)
    (inoc : Inoculation) (d : Draws) :
    (processInoculation params day host inoc d).2 = host ∨
      ∃ c, (processInoculation params day host inoc d).2 = scheduleTreat host c := by
  obtain ⟨s, sd, dd⟩ := inoc
  cases s
  case E =>
    by_cases hel : dd ≤ (day : ℚ) - (sd : ℚ)
    · by_cases hp : host.on_prophylaxis
      · left
        simp [processInoculation, hel, hp]
      · by_cases ha : d.u_acute < params.prob_acute
        · by_cases ht : d.u_treat < params.prob_treatment
          · right
            exact ⟨treatCandidateDay day d.treat_delay,
              by simp [processInoculation, hel, hp, ha, ht]⟩
          · left
            simp [processInoculation, hel, hp, ha, ht]
        · left
          simp [processInoculation, hel, hp, ha]
    · left
      simp [processInoculation, hel]
  case A =>
    by_cases hel : dd ≤ (day : ℚ) - (sd : ℚ)
    · by_cases hc : d.u_ac < params.prob_ac
      · left
        simp [processInoculation, hel, hc]
      · left
        simp [processInoculation, hel, hc]
    · left
      simp [processInoculation, hel]
  case C =>
    by_cases hel : dd ≤ (day : ℚ) - (sd : ℚ)
    · left
      simp [processInoculation, hel]
    · left
      simp [processInoculation, hel]

/-- C4: the treatment-request field obeys earliest-wins semantics — an unset
request takes the candidate, a set request is overwritten only by a strictly
earlier candidate (the result is the minimum, hence never later than what was
set) — the request is cleared exactly when treatment is applied (kept verbatim
on days before it falls due), and the transition step touches a host only
through this earliest-wins update. -/
theorem claim_C4 (host host0 host2 : Host) (t cand : ℕ) (params : Params)
    (dayA dayB : ℕ) (inocs : List Inoculation) (inoc : Inoculation) (d : Draws)
    (h : host.treat_request_day = some t) (h0 : host0.treat_request_day = none)
    (hA : t ≤ dayA) (hB : dayB < t) :
    (scheduleTreat host cand).treat_request_day = some (min t cand) ∧
    min t cand ≤ t ∧
    (scheduleTreat host0 cand).treat_request_day = some cand ∧
    (processHost params dayA host inocs).1.treat_request_day = none ∧
    (processHost params dayB host inocs).1.treat_request_day = some t ∧
    ((processInoculation params dayA host2 inoc d).2 = host2 ∨
      ∃ c, (processInoculation params dayA host2 inoc d).2 = scheduleTreat host2 c) := by
  refine ⟨?_, Nat.min_le_left t cand, ?_, ?_, ?_,
    processInoculation_host_eq params dayA host2 inoc d⟩
  · unfold scheduleTreat
    rw [h]
    by_cases hc : cand < t
    · simp only [if_pos hc]
      have : min t cand = cand := by omega
      rw [this]
    · simp only [if_neg hc]
      have : min t cand = t := by omega
      rw [this, h]
  · unfold scheduleTreat
    rw [h0]
  · unfold processHost endProphylaxis
    simp [applyTreatment, h, hA]
    split <;> rfl
  · have hnot : ¬ t ≤ dayB := by omega
    unfold processHost endProphylaxis
    simp only [applyTreatment, h, if_neg hnot]
    rcases hpe : host.prophylaxis_end_day with _ | e
    · simp [hpe, h]
    · by_cases he : e ≤ dayB
      · simp [hpe, he, h]
      · simp [hpe, he, h]

/-- Witness for C4: a host whose request is pending for day 5, a candidate of
day 3, treatment falling due on day 5 and not yet due on day 3. -/
theorem claim_C4_witness :
    (scheduleTreat ⟨false, none, some 5⟩ 3).treat_request_day = some (min 5 3) ∧
    min 5 3 ≤ 5 ∧
    (scheduleTreat Host.default 3).treat_request_day = some 3 ∧
    (processHost Params.default 5 ⟨false, none, some 5⟩ []).1.treat_request_day = none ∧
    (processHost Params.default 3 ⟨false, none, some 5⟩ []).1.treat_request_day = some 5 ∧
    ((processInoculation Params.default 5 Host.default ⟨InfectionState.E, 0, 7⟩ d0).2 =
        Host.default ∨
      ∃ c, (processInoculation Params.default 5 Host.default
              ⟨InfectionState.E, 0, 7⟩ d0).2 = scheduleTreat Host.default c) :=
  claim_C4 ⟨false, none, some 5⟩ Host.default Host.default 5 3 Params.default 5 3 []
    ⟨InfectionState.E, 0, 7⟩ d0 rfl rfl (by norm_num) (by norm_num)

/-- C6, counterexample: an elapsed Exposed inoculation of a host on prophylaxis
is removed outright — the transition Exposed→removed, which the claim's edge
list (Exposed→Acute, Exposed→Chronic, Acute→Chronic, Acute→removed,
Chronic→removed) does not contain, and it is not an unchanged survival either. -/
theorem claim_C6_counterexample :
    (processInoculation Params.default 10 ⟨true, some 20, none⟩
        ⟨InfectionState.E, 0, 7⟩ d0).1 = none ∧
    ¬ claimedEdge InfectionState.E none ∧
    (processInoculation Params.default 10 ⟨true, some 20, none⟩
        ⟨InfectionState.E, 0, 7⟩ d0).1 ≠ some ⟨InfectionState.E, 0, 7⟩ := by
  have h1 : (processInoculation Params.default 10 ⟨true, some 20, none⟩
      ⟨InfectionState.E, 0, 7⟩ d0).1 = none := by
    norm_num [processInoculation]
  exact ⟨h1, by simp [claimedEdge], by rw [h1]; simp⟩

/-- C6, amended: every transition follows the edges Exposed→{Acute, Chronic,
removed}, Acute→{Chronic, removed}, Chronic→removed — the claim's list plus
Exposed→removed (prophylaxis suppression; forced clearing by treatment, which
only ever removes inoculations, never rewrites their state). No reverse edge
(Acute→Exposed, Chronic→Acute, …) ever occurs. -/
theorem claim_C6_amended (params : Params) (day : ℕ) (host host2 : Host)
    (inoc : Inoculation) (d : Draws) (inocs : List Inoculation) :
    ((processInoculation params day host inoc d).1 = some inoc ∨
      codeEdge inoc.state (processInoculation params day host inoc d).1) ∧
    ((processHost params day host2 inocs).2 = inocs ∨
      (processHost params day host2 inocs).2 = []) := by
  constructor
  · obtain ⟨s, sd, dd⟩ := inoc
    cases s
    case E =>
      by_cases hel : dd ≤ (day : ℚ) - (sd : ℚ)
      · right
        by_cases hp : host.on_prophylaxis
        · simp [processInoculation, hel, hp, codeEdge]
        · by_cases ha : d.u_acute < params.prob_acute
          · by_cases ht : d.u_treat < params.prob_treatment
            · simp [processInoculation, hel, hp, ha, ht, codeEdge]
            · simp [processInoculation, hel, hp, ha, ht, codeEdge]
          · simp [processInoculation, hel, hp, ha, codeEdge]
      · left
        simp [processInoculation, hel]
    case A =>
      by_cases hel : dd ≤ (day : ℚ) - (sd : ℚ)
      · right
        by_cases hc : d.u_ac < params.prob_ac
        · simp [processInoculation, hel, hc, codeEdge]
        · simp [processInoculation, hel, hc, codeEdge]
      · left
        simp [processInoculation, hel]
    case C =>
      by_cases hel : dd ≤ (day : ℚ) - (sd : ℚ)
      · right
        simp [processInoculation, hel, codeEdge]
      · left
        simp [processInoculation, hel]
  · unfold processHost applyTreatment
    rcases ht : host2.treat_request_day with _ | t
    · left
      simp
    · by_cases hd : t ≤ day
      · right
        simp [hd]
      · left
        simp [hd]

/-- C9: the prophylaxis flag and its end day stay consistent — a host
satisfying `on_prophylaxis ↔ prophylaxis_end_day is set` still satisfies it
after `processHost` (treatment sets both together, the end check clears both
together), the transition step never writes either field, and the initial
default host satisfies the invariant. -/
theorem claim_C9 (params : Params) (day : ℕ) (host : Host)
    (inocs : List Inoculation) (inoc : Inoculation) (d : Draws)
    (hinv : prophylaxisInv host) :
    prophylaxisInv (processHost params day host inocs).1 ∧
    (processInoculation params day host inoc d).2.on_prophylaxis =
      host.on_prophylaxis ∧
    (processInoculation params day host inoc d).2.prophylaxis_end_day =
      host.prophylaxis_end_day ∧
    prophylaxisInv Host.default := by
  refine ⟨?_, ?_, ?_, by simp [prophylaxisInv, Host.default]⟩
  · obtain ⟨ob, pe, tr⟩ := host
    unfold prophylaxisInv at hinv ⊢
    rcases tr with _ | t
    · rcases pe with _ | e
      · simpa [processHost, applyTreatment, endProphylaxis] using hinv
      · by_cases he : e ≤ day
        · simp [processHost, applyTreatment, endProphylaxis, he]
        · simpa [processHost, applyTreatment, endProphylaxis, he] using hinv
    · by_cases htd : t ≤ day
      · by_cases hk : day + ratToU32 params.duration_prophylaxis ≤ day
        · simp [processHost, applyTreatment, endProphylaxis, htd, hk]
        · simp [processHost, applyTreatment, endProphylaxis, htd, hk]
      · rcases pe with _ | e
        · simpa [processHost, applyTreatment, endProphylaxis, htd] using hinv
        · by_cases he : e ≤ day
          · simp [processHost, applyTreatment, endProphylaxis, htd, he]
          · simpa [processHost, applyTreatment, endProphylaxis, htd, he] using hinv
  · rcases processInoculation_host_eq params day host inoc d with hh | ⟨c, hh⟩
    · rw [hh]
    · rw [hh, scheduleTreat_on_prophylaxis]
  · rcases processInoculation_host_eq params day host inoc d with hh | ⟨c, hh⟩
    · rw [hh]
    · rw [hh, scheduleTreat_prophylaxis_end_day]

/-- Witness for C9: a host mid-prophylaxis (flag set, end day set) processed on
day 3 with the default parameters. -/
theorem claim_C9_witness :
    prophylaxisInv (processHost Params.default 3 ⟨true, some 3, none⟩ []).1 ∧
    (processInoculation Params.default 3 ⟨true, some 3, none⟩
        ⟨InfectionState.E, 0, 7⟩ d0).2.on_prophylaxis =
      (⟨true, some 3, none⟩ : Host).on_prophylaxis ∧
    (processInoculation Params.default 3 ⟨true, some 3, none⟩
        ⟨InfectionState.E, 0, 7⟩ d0).2.prophylaxis_end_day =
      (⟨true, some 3, none⟩ : Host).prophylaxis_end_day ∧
    prophylaxisInv Host.default :=
  claim_C9 Params.default 3 ⟨true, some 3, none⟩ [] ⟨InfectionState.E, 0, 7⟩ d0
    (by simp [prophylaxisInv])
